import Mathlib

/-!
Shallow embedding of the playback-state / frame-presentation layer of the
`wenrustplayer` frontend (`src/src/main.ts`).

Numeric values that are JavaScript numbers in the source (seconds, volume
levels) are embedded as rationals; remote-engine calls (`invoke`) are
embedded as an `Option` response passed to the handler: `some r` is a
successful round-trip returning `r`, `none` is a rejected call (the
`catch` branch runs).
-/

namespace WenPlayer

/-- The module-level mirrored playback state of `main.ts`:
`isPlaying`, `currentTime`, `duration`, `volume` (lines 224-227). -/
structure PlayerState where
  isPlaying : Bool
  currentTime : ℚ
  duration : ℚ
  volume : ℚ
  deriving Repr, DecidableEq

/-- The initial values of the module-level playback globals
(`isPlaying = false`, `currentTime = 0`, `duration = 0`, `volume = 0.8`). -/
def initialPlayerState : PlayerState :=
  { isPlaying := false, currentTime := 0, duration := 0, volume := 8/10 }

/-- `togglePlayPause` (main.ts lines 230-259): invokes `toggle_playback`;
on success (`resp = some playing`) adopts the engine-reported boolean as
`isPlaying`; on failure (`resp = none`) negates the previous local value. -/
def togglePlayPause (resp : Option Bool) (s : PlayerState) : PlayerState :=
  match resp with
  | some playing => { s with isPlaying := playing }
  | none => { s with isPlaying := !s.isPlaying }

/-- The seek time the progress-bar click handler computes and sends to the
engine (main.ts lines 313-319): `percent = (x / rect.width) * 100`,
`newTime = (percent / 100) * duration`. -/
def seekRequest (x width duration : ℚ) : ℚ :=
  let percent := x / width * 100
  percent / 100 * duration

/-- The progress-bar click handler (main.ts lines 312-332): computes the
requested time from the click offset `x` within a bar of width `width`,
invokes `seek_to`; on success adopts the engine-returned actual position,
on failure adopts the requested time. -/
def progressBarClick (x width : ℚ) (resp : Option ℚ) (s : PlayerState) :
    PlayerState :=
  let newTime := seekRequest x width s.duration
  match resp with
  | some seekedTime => { s with currentTime := seekedTime }
  | none => { s with currentTime := newTime }

/-- The volume-slider `input` handler (main.ts lines 346-374): the slider
value `v` (integer, 0-100) is divided by 100, `set_volume` is invoked; on
success the engine-returned actual volume is stored, on failure the locally
computed `newVolume` is stored. -/
def volumeSliderInput (v : ℕ) (resp : Option ℚ) (s : PlayerState) :
    PlayerState :=
  let newVolume : ℚ := (v : ℚ) / 100
  match resp with
  | some actualVolume => { s with volume := actualVolume }
  | none => { s with volume := newVolume }

/-- The `setInterval` callback installed by `initPlayerControls`
(main.ts lines 429-436): once per second, if `isPlaying && currentTime <
duration`, advance `currentTime` by 1; otherwise do nothing.  It is a pure
function of the local state: no engine call appears in its body. -/
def tick (s : PlayerState) : PlayerState :=
  if s.isPlaying ∧ s.currentTime < s.duration then
    { s with currentTime := s.currentTime + 1 }
  else s

/-- Clamping into the unit interval, written from the specification's words
(the source stores engine-returned volume values directly); used to compare
the stored value with the clamped engine value. -/
def clamp01 (q : ℚ) : ℚ := max 0 (min 1 q)

/-- The audio-extension set of `showMediaIcon` (main.ts line 178). -/
def audioExtensions : List String :=
  ["mp3", "flac", "wav", "aac", "ogg", "m4a", "wma"]

/-- The video-extension set of `showMediaIcon` (main.ts line 180). -/
def videoExtensions : List String :=
  ["mp4", "mkv", "avi", "mov", "wmv", "flv", "webm", "m4v"]

/-- The characters of the last `sep`-separated segment of a character list:
the embedding of JavaScript `str.split(sep).pop()` (a left fold that
restarts the accumulator at each separator). -/
def lastSegmentAfter (sep : Char → Bool) (cs : List Char) : List Char :=
  cs.foldl (fun acc c => if sep c then [] else acc ++ [c]) []

/-- The lowercased final extension of a path, the embedding of
`filePath.split('.').pop()?.toLowerCase() || ''` (main.ts line 170);
for a path without a dot this is the whole lowercased path, exactly as in
the source. -/
def extensionOf (filePath : String) : String :=
  String.mk ((lastSegmentAfter (fun c => c = '.') filePath.data).map
    Char.toLower)

/-- Visibility of the four presentation elements `showMediaIcon` toggles:
audio icon, video icon, video canvas, player control strip. -/
structure MediaDisplay where
  audioIconShown : Bool
  videoIconShown : Bool
  videoCanvasShown : Bool
  playerControlsShown : Bool
  deriving Repr, DecidableEq

/-- All four elements hidden: `showMediaIcon` first sets every element's
display to `none` (main.ts lines 183-186). -/
def hiddenDisplay : MediaDisplay :=
  { audioIconShown := false, videoIconShown := false,
    videoCanvasShown := false, playerControlsShown := false }

/-- `showMediaIcon` (main.ts lines 169-221): hides all elements, then shows
the audio icon and controls for an audio extension, the video icon, canvas
and controls for a video extension, and defaults to the audio icon and
controls for anything else. -/
def showMediaIcon (filePath : String) : MediaDisplay :=
  let extension := extensionOf filePath
  let d := hiddenDisplay
  if extension ∈ audioExtensions then
    { d with audioIconShown := true, playerControlsShown := true }
  else if extension ∈ videoExtensions then
    { d with videoIconShown := true, videoCanvasShown := true,
             playerControlsShown := true }
  else
    { d with audioIconShown := true, playerControlsShown := true }

/-- The specification's media-kind enumeration. -/
inductive MediaKind where
  | Audio
  | Video
  | Unknown
  deriving Repr, DecidableEq

/-- Classification induced by `showMediaIcon`'s branch structure: the
lowercased final extension tested against the audio set, then the video
set, with the unmatched case defaulting to `Audio`. -/
def classify (path : String) : MediaKind :=
  if extensionOf path ∈ audioExtensions then MediaKind.Audio
  else if extensionOf path ∈ videoExtensions then MediaKind.Video
  else MediaKind.Audio

/-- The displayed file name computed by `openFileDialog` (main.ts line 91):
`selected.split(/[/\\]/).pop() || selected`. -/
def baseName (path : String) : String :=
  let last := String.mk
    (lastSegmentAfter (fun c => c = '/' ∨ c = '\\') path.data)
  if last = "" then path else last

/-- The pieces of module-level frontend state `openFileDialog` and
`initPlayerControls` can reach: the mirrored playback state, the media
presentation visibility, and the displayed file name. -/
structure AppState where
  player : PlayerState
  display : MediaDisplay
  fileName : Option String
  deriving Repr, DecidableEq

/-- `openFileDialog` (main.ts lines 67-122) as a state transformer:
`selected = none` models a cancelled or invalid picker result (no state
change); on a selected path the file-name label is set, `load_file` is
invoked (its success or failure `loadResult` only logs and alters no
mirrored state), and `showMediaIcon` recomputes the presentation.  No
field of the playback state is written in either branch. -/
def openFileDialog (selected : Option String) (loadResult : Option Unit)
    (s : AppState) : AppState :=
  match selected, loadResult with
  | none, _ => s
  | some path, _ =>
      { s with fileName := some (baseName path),
               display := showMediaIcon path }

/-- The state effect of `initPlayerControls` (main.ts lines 418-437) on the
mirrored playback state: it sets `duration := 180` (the demo value) and
installs the one-second `tick` interval; it runs once at
`DOMContentLoaded`. -/
def initPlayerControls (s : AppState) : AppState :=
  { s with player := { s.player with duration := 180 } }

/-- The invariant of the claim set: the mirrored position never exceeds the
duration while a duration is known. -/
def posInv (s : PlayerState) : Prop :=
  0 < s.duration → s.currentTime ≤ s.duration

/-- A video frame pushed by the engine (`VideoFrameData`, main.ts lines
16-21): dimensions, RGBA bytes, timestamp. -/
structure VideoFrameData where
  width : ℕ
  height : ℕ
  data : List ℕ
  timestamp : ℚ
  deriving Repr, DecidableEq

/-- The raster canvas: backing-store dimensions and current pixel
contents. -/
structure Canvas where
  width : ℕ
  height : ℕ
  pixels : List ℕ
  deriving Repr, DecidableEq

/-- The module-level state of the frame renderer: the lazily resolved
canvas handle (main.ts line 12) and the number of times the
unresolved-canvas condition has been reported via `console.error`. -/
structure RenderState where
  videoCanvas : Option Canvas
  canvasErrors : ℕ
  deriving Repr, DecidableEq

/-- The outcome of one `renderVideoFrame` call: the new renderer state,
whether the backing store was resized, and whether the call raised. -/
structure RenderOutcome where
  state : RenderState
  didResize : Bool
  raised : Bool
  deriving Repr, DecidableEq

/-- The DOM `ImageData(array, width, height)` constructor contract: the
construction succeeds exactly when both dimensions are positive and the
array length equals `width * height * 4`; otherwise it throws. -/
def mkImageDataOk (data : List ℕ) (w h : ℕ) : Bool :=
  0 < w ∧ 0 < h ∧ data.length = w * h * 4

/-- Lazy canvas resolution (main.ts lines 25-30): the module-level handle
if already bound, else what `document.getElementById` currently returns
(`dom`). -/
def resolveCanvas (dom : Option Canvas) (st : RenderState) : Option Canvas :=
  match st.videoCanvas with
  | some c => some c
  | none => dom

/-- `renderVideoFrame` (main.ts lines 24-51): resolve the canvas lazily;
if unresolved, log the condition and return; else resize the backing store
only when its dimensions differ from the frame's (a DOM canvas resize
clears the contents), then construct the `ImageData` (which throws on a
length mismatch, after the resize already happened) and blit it, the byte
values clamped by `Uint8ClampedArray`. -/
def renderVideoFrame (dom : Option Canvas) (frame : VideoFrameData)
    (st : RenderState) : RenderOutcome :=
  match resolveCanvas dom st with
  | none =>
      { state := { st with canvasErrors := st.canvasErrors + 1 },
        didResize := false, raised := false }
  | some c =>
      let resize : Bool := c.width != frame.width || c.height != frame.height
      let c1 : Canvas :=
        if resize then
          { width := frame.width, height := frame.height,
            pixels := List.replicate (frame.width * frame.height * 4) 0 }
        else c
      let painted : Canvas :=
        { c1 with pixels := frame.data.map (fun b => min b 255) }
      if mkImageDataOk frame.data frame.width frame.height then
        { state := { videoCanvas := some painted,
                     canvasErrors := st.canvasErrors },
          didResize := resize, raised := false }
      else
        { state := { videoCanvas := some c1,
                     canvasErrors := st.canvasErrors },
          didResize := resize, raised := true }

/-- Present a sequence of frame events in arrival order (the `video-frame`
listener, main.ts lines 502-509), collecting each call's resize flag; a
raise in one handler does not stop later events. -/
def runFrames (dom : Option Canvas) (st : RenderState) :
    List VideoFrameData → RenderState × List Bool
  | [] => (st, [])
  | f :: fs =>
      let o := renderVideoFrame dom f st
      let r := runFrames dom o.state fs
      (r.1, o.didResize :: r.2)

end WenPlayer

namespace WenPlayer

/-- C4: for a progress-bar click at offset `x` within a bar of width
`width` (fractional position `p = x / width ∈ [0,1]`), the seek time
requested from the engine equals `p * duration`; on success the stored
position becomes the engine-returned actual position `a`, and on failure
it becomes exactly the requested value `p * duration`. -/
theorem progressBarClick_request_and_fallback (x width a : ℚ)
    (s : PlayerState) (hx0 : 0 ≤ x) (hxw : x ≤ width) (hw : 0 < width) :
    seekRequest x width s.duration = x / width * s.duration ∧
    (progressBarClick x width (some a) s).currentTime = a ∧
    (progressBarClick x width none s).currentTime =
      x / width * s.duration := by
  refine ⟨by unfold seekRequest; ring, rfl, ?_⟩
  show seekRequest x width s.duration = x / width * s.duration
  unfold seekRequest; ring

/-- Witness for C4 at the concrete click `x = 1`, `width = 2`,
engine response `a = 42`, on the initial playback state. -/
theorem progressBarClick_request_and_fallback_witness :
    seekRequest 1 2 initialPlayerState.duration =
      1 / 2 * initialPlayerState.duration ∧
    (progressBarClick 1 2 (some 42) initialPlayerState).currentTime = 42 ∧
    (progressBarClick 1 2 none initialPlayerState).currentTime =
      1 / 2 * initialPlayerState.duration :=
  progressBarClick_request_and_fallback 1 2 42 initialPlayerState
    (by norm_num) (by norm_num) (by norm_num)

/-- C5: `tick` is a pure function of the local state (by its type it
consults no engine response); it advances `currentTime` by exactly 1 when
`isPlaying` is true and `currentTime < duration`, touching nothing else,
and leaves the state unchanged otherwise; five ticks from
`(playing, 10, 180)` reach 15, and a tick at `currentTime = 180` stays
at 180. -/
theorem tick_advances_locally (s : PlayerState) :
    (s.isPlaying = true ∧ s.currentTime < s.duration →
      (tick s).currentTime = s.currentTime + 1 ∧
      (tick s).isPlaying = s.isPlaying ∧
      (tick s).duration = s.duration ∧
      (tick s).volume = s.volume) ∧
    (¬ (s.isPlaying = true ∧ s.currentTime < s.duration) → tick s = s) ∧
    (tick (tick (tick (tick (tick
      { isPlaying := true, currentTime := 10, duration := 180,
        volume := 8/10 }))))).currentTime = 15 ∧
    (tick { isPlaying := true, currentTime := 180, duration := 180,
            volume := 8/10 }).currentTime = 180 := by
  refine ⟨fun h => ?_, fun h => ?_, by norm_num [tick], by norm_num [tick]⟩
  · unfold tick
    rw [if_pos h]
    exact ⟨rfl, rfl, rfl, rfl⟩
  · unfold tick
    rw [if_neg h]

/-- Witness for C5 at the concrete playing state `(true, 10, 180)`. -/
theorem tick_advances_locally_witness :
    (tick { isPlaying := true, currentTime := 10, duration := 180,
            volume := 8/10 : PlayerState }).currentTime = 10 + 1 :=
  ((tick_advances_locally
    { isPlaying := true, currentTime := 10, duration := 180,
      volume := 8/10 }).1 (by decide)).1

/-- C2: for an integer slider input `v ∈ [0,100]` and an engine response
within the interface's declared range `[0,1]`, the stored volume after the
slider handler lies in `[0,1]` whether `set_volume` succeeds or fails, and
on success it equals the engine-returned value clamped into `[0,1]` (the
source stores the value directly; within the declared range the clamp is
the identity). -/
theorem volumeSliderInput_volume_in_range (v : ℕ) (a : ℚ) (s : PlayerState)
    (hv : v ≤ 100) (ha0 : 0 ≤ a) (ha1 : a ≤ 1) :
    (volumeSliderInput v (some a) s).volume = clamp01 a ∧
    0 ≤ (volumeSliderInput v (some a) s).volume ∧
    (volumeSliderInput v (some a) s).volume ≤ 1 ∧
    0 ≤ (volumeSliderInput v none s).volume ∧
    (volumeSliderInput v none s).volume ≤ 1 := by
  have hsucc : (volumeSliderInput v (some a) s).volume = a := rfl
  have hfail : (volumeSliderInput v none s).volume = (v : ℚ) / 100 := rfl
  refine ⟨?_, ?_, ?_, ?_, ?_⟩
  · rw [hsucc, clamp01, min_eq_right ha1, max_eq_right ha0]
  · rw [hsucc]; exact ha0
  · rw [hsucc]; exact ha1
  · rw [hfail]; positivity
  · rw [hfail, div_le_one (by norm_num)]
    exact_mod_cast hv

/-- Witness for C2 at slider value 50 and engine response `7/10`. -/
theorem volumeSliderInput_volume_in_range_witness :
    (volumeSliderInput 50 (some (7/10)) initialPlayerState).volume =
      clamp01 (7/10) ∧
    0 ≤ (volumeSliderInput 50 (some (7/10)) initialPlayerState).volume ∧
    (volumeSliderInput 50 (some (7/10)) initialPlayerState).volume ≤ 1 ∧
    0 ≤ (volumeSliderInput 50 none initialPlayerState).volume ∧
    (volumeSliderInput 50 none initialPlayerState).volume ≤ 1 :=
  volumeSliderInput_volume_in_range 50 (7/10) initialPlayerState
    (by norm_num) (by norm_num) (by norm_num)

/-- C3 counterexample: opening a new file does NOT re-initialize the
mirrored playback state — from a state with `currentTime = 10` and
`duration = 180`, `openFileDialog` on a selected path leaves the position
at 10 (not 0) and the duration at 180 (not reset). -/
theorem openFileDialog_keeps_stale_position :
    (openFileDialog (some ("b.mp3")) (some ())
      { player := { isPlaying := true, currentTime := 10, duration := 180,
                    volume := 8/10 },
        display := hiddenDisplay,
        fileName := none }).player.currentTime = 10 ∧
    (10 : ℚ) ≠ 0 ∧
    (openFileDialog (some ("b.mp3")) (some ())
      { player := { isPlaying := true, currentTime := 10, duration := 180,
                    volume := 8/10 },
        display := hiddenDisplay,
        fileName := none }).player.duration = 180 := by
  refine ⟨rfl, by norm_num, rfl⟩

/-- C3 amended: `openFileDialog` updates the file-name label and the media
presentation and forwards the path to the engine, but it performs no
re-initialization of the mirrored playback state: position and duration
are unchanged on every open (successful or not); position 0 and the demo
duration 180 come only from startup initialization
(`initPlayerControls`). -/
theorem openFileDialog_preserves_player (selected : Option String)
    (loadResult : Option Unit) (s : AppState) :
    (openFileDialog selected loadResult s).player = s.player ∧
    (initPlayerControls s).player.duration = 180 ∧
    initialPlayerState.currentTime = 0 := by
  refine ⟨?_, rfl, rfl⟩
  cases selected with
  | none => rfl
  | some path => rfl

/-- C9: classification is a total function of the lowercased final
extension tested against two disjoint sets: an audio extension yields the
Audio presentation (audio icon shown, video canvas hidden, controls
shown), a video extension yields the Video presentation (video canvas
shown, controls shown), and an unmatched or missing extension defaults to
the Audio presentation — never a hidden/Unknown one (the control strip is
always revealed); concretely `.flac` is Audio without the canvas and
`.mkv` is Video with the canvas. -/
theorem showMediaIcon_classifies (path : String) :
    (extensionOf path ∈ audioExtensions →
      classify path = MediaKind.Audio ∧
      showMediaIcon path =
        { audioIconShown := true, videoIconShown := false,
          videoCanvasShown := false, playerControlsShown := true }) ∧
    (extensionOf path ∉ audioExtensions →
      extensionOf path ∈ videoExtensions →
      classify path = MediaKind.Video ∧
      showMediaIcon path =
        { audioIconShown := false, videoIconShown := true,
          videoCanvasShown := true, playerControlsShown := true }) ∧
    (extensionOf path ∉ audioExtensions →
      extensionOf path ∉ videoExtensions →
      classify path = MediaKind.Audio ∧
      showMediaIcon path =
        { audioIconShown := true, videoIconShown := false,
          videoCanvasShown := false, playerControlsShown := true }) ∧
    classify path ≠ MediaKind.Unknown ∧
    (showMediaIcon path).playerControlsShown = true ∧
    audioExtensions.inter videoExtensions = [] ∧
    classify ("a.flac") = MediaKind.Audio ∧
    (showMediaIcon ("a.flac")).videoCanvasShown = false ∧
    (showMediaIcon ("a.flac")).audioIconShown = true ∧
    classify ("b.mkv") = MediaKind.Video ∧
    (showMediaIcon ("b.mkv")).videoCanvasShown = true := by
  refine ⟨fun h1 => ?_, fun h1 h2 => ?_, fun h1 h2 => ?_, ?_, ?_,
    by decide, by decide, by decide, by decide, by decide, by decide⟩
  · constructor
    · unfold classify; rw [if_pos h1]
    · unfold showMediaIcon; rw [if_pos h1]; rfl
  · constructor
    · unfold classify; rw [if_neg h1, if_pos h2]
    · unfold showMediaIcon; rw [if_neg h1, if_pos h2]; rfl
  · constructor
    · unfold classify; rw [if_neg h1, if_neg h2]
    · unfold showMediaIcon; rw [if_neg h1, if_neg h2]; rfl
  · unfold classify
    by_cases h1 : extensionOf path ∈ audioExtensions
    · rw [if_pos h1]; intro heq; exact MediaKind.noConfusion heq
    · rw [if_neg h1]
      by_cases h2 : extensionOf path ∈ videoExtensions
      · rw [if_pos h2]; intro heq; exact MediaKind.noConfusion heq
      · rw [if_neg h2]; intro heq; exact MediaKind.noConfusion heq
  · unfold showMediaIcon
    by_cases h1 : extensionOf path ∈ audioExtensions
    · rw [if_pos h1]
    · rw [if_neg h1]
      by_cases h2 : extensionOf path ∈ videoExtensions
      · rw [if_pos h2]
      · rw [if_neg h2]

/-- Witness for C9: the audio-extension branch applied at a `.flac`
path. -/
theorem showMediaIcon_classifies_witness :
    classify ("a.flac") = MediaKind.Audio ∧
    showMediaIcon ("a.flac") =
      { audioIconShown := true, videoIconShown := false,
        videoCanvasShown := false, playerControlsShown := true } :=
  (showMediaIcon_classifies ("a.flac")).1 (by decide)

/-- C6 counterexample: the invariant `position ≤ duration` (with
`duration > 0`) is NOT preserved by every operation for every engine
response: a successful `seek_to` round-trip returning 500 on a state with
`duration = 180` stores position 500, violating the invariant — the
handler adopts the engine value without any clamp against the duration. -/
theorem seek_success_breaks_position_invariant :
    posInv { isPlaying := true, currentTime := 0, duration := 180,
             volume := 8/10 } ∧
    (0 : ℚ) < 180 ∧
    (progressBarClick 90 100 (some 500)
      { isPlaying := true, currentTime := 0, duration := 180,
        volume := 8/10 }).currentTime = 500 ∧
    (progressBarClick 90 100 (some 500)
      { isPlaying := true, currentTime := 0, duration := 180,
        volume := 8/10 }).duration = 180 ∧
    ¬ posInv (progressBarClick 90 100 (some 500)
      { isPlaying := true, currentTime := 0, duration := 180,
        volume := 8/10 }) := by
  have hres : progressBarClick 90 100 (some 500)
      { isPlaying := true, currentTime := 0, duration := 180,
        volume := 8/10 } =
      { isPlaying := true, currentTime := 500, duration := 180,
        volume := 8/10 } := rfl
  refine ⟨by intro _; norm_num, by norm_num, rfl, rfl, ?_⟩
  rw [hres]
  intro hp
  have h1 : (500 : ℚ) ≤ 180 := hp (by norm_num)
  norm_num at h1

/-- C6 amended: with `posInv s` meaning `0 < duration → position ≤
duration`, the invariant is preserved by `togglePlayPause` and the volume
handler for every engine response, by a seek that fails when the click
lies inside the bar (`0 ≤ x ≤ width`), and by a seek that succeeds
whenever the engine-returned position is at most the duration; `tick`
preserves it when position and duration are whole seconds, and in general
`tick` keeps the position below `duration + 1` (a fractional position may
overshoot the duration by less than one unit). -/
theorem posInv_preserved_amended (s : PlayerState) (hinv : posInv s) :
    (∀ b, posInv (togglePlayPause (some b) s)) ∧
    posInv (togglePlayPause none s) ∧
    (∀ v a, posInv (volumeSliderInput v (some a) s)) ∧
    (∀ v, posInv (volumeSliderInput v none s)) ∧
    (∀ x width a, a ≤ s.duration →
      posInv (progressBarClick x width (some a) s)) ∧
    (∀ x width, 0 ≤ x → x ≤ width →
      posInv (progressBarClick x width none s)) ∧
    (s.currentTime.den = 1 → s.duration.den = 1 → posInv (tick s)) ∧
    (0 < s.duration → (tick s).currentTime < s.duration + 1) := by
  refine ⟨fun b => hinv, hinv, fun v a => hinv, fun v => hinv,
    fun x width a ha hd => ha, fun x width hx hxw => ?_, ?_, ?_⟩
  · intro hd
    show seekRequest x width s.duration ≤ s.duration
    have hr : seekRequest x width s.duration =
        x / width * s.duration := by
      unfold seekRequest; ring
    rw [hr]
    by_cases hw : width = 0
    · subst hw
      have hx0 : x = 0 := le_antisymm hxw hx
      subst hx0
      simp only [zero_div, zero_mul]
      exact hd.le
    · have hwpos : 0 < width := lt_of_le_of_ne (hx.trans hxw) (Ne.symm hw)
      have h1 : x / width ≤ 1 := (div_le_one hwpos).mpr hxw
      calc x / width * s.duration ≤ 1 * s.duration :=
            mul_le_mul_of_nonneg_right h1 hd.le
        _ = s.duration := one_mul _
  · intro hcd hdd
    by_cases hcond : s.isPlaying = true ∧ s.currentTime < s.duration
    · have htick : (tick s).currentTime = s.currentTime + 1 := by
        unfold tick; rw [if_pos hcond]
      have hdur : (tick s).duration = s.duration := by
        unfold tick; rw [if_pos hcond]
      intro hd
      rw [htick, hdur]
      have e1 : ((s.currentTime.num : ℚ)) = s.currentTime :=
        Rat.coe_int_num_of_den_eq_one hcd
      have e2 : ((s.duration.num : ℚ)) = s.duration :=
        Rat.coe_int_num_of_den_eq_one hdd
      have hlt : s.currentTime < s.duration := hcond.2
      rw [← e1, ← e2] at hlt ⊢
      have hi : s.currentTime.num < s.duration.num := by exact_mod_cast hlt
      have hi2 : s.currentTime.num + 1 ≤ s.duration.num :=
        Int.lt_iff_add_one_le.mp hi
      exact_mod_cast hi2
    · have htick : tick s = s := by
        unfold tick; rw [if_neg hcond]
      rw [htick]
      exact hinv
  · intro hd
    by_cases hcond : s.isPlaying = true ∧ s.currentTime < s.duration
    · have htick : (tick s).currentTime = s.currentTime + 1 := by
        unfold tick; rw [if_pos hcond]
      rw [htick]
      linarith [hcond.2]
    · have htick : tick s = s := by
        unfold tick; rw [if_neg hcond]
      rw [htick]
      linarith [hinv hd]

/-- Witness for C6 (amended) at the playing state `(true, 10, 180)`:
`tick` and an in-bar failed seek both keep the invariant. -/
theorem posInv_preserved_amended_witness :
    posInv (tick { isPlaying := true, currentTime := 10, duration := 180,
                   volume := 8/10 }) ∧
    posInv (progressBarClick 50 100 none
      { isPlaying := true, currentTime := 10, duration := 180,
        volume := 8/10 }) :=
  have h := posInv_preserved_amended
    { isPlaying := true, currentTime := 10, duration := 180,
      volume := 8/10 } (fun _ => by norm_num)
  ⟨h.2.2.2.2.2.2.1 (by decide) (by decide),
   h.2.2.2.2.2.1 50 100 (by norm_num) (by norm_num)⟩

/-- C10: with the canvas handle resolved, `renderVideoFrame` raises
exactly when the frame's pixel-byte sequence length differs from
`width * height * 4` (for positive frame dimensions): the `ImageData`
construction requires exactly that length, and no other step raises. -/
theorem renderVideoFrame_raises_iff_bad_length (dom : Option Canvas)
    (st : RenderState) (c : Canvas) (frame : VideoFrameData)
    (hc : st.videoCanvas = some c) (hw : 0 < frame.width)
    (hh : 0 < frame.height) :
    ((renderVideoFrame dom frame st).raised = true ↔
      frame.data.length ≠ frame.width * frame.height * 4) := by
  have hres : resolveCanvas dom st = some c := by
    unfold resolveCanvas; rw [hc]
  unfold renderVideoFrame
  rw [hres]
  dsimp only
  by_cases hok : mkImageDataOk frame.data frame.width frame.height = true
  · rw [if_pos hok]
    simp only [mkImageDataOk, decide_eq_true_eq] at hok
    simp [hok.2.2]
  · rw [if_neg hok]
    simp only [mkImageDataOk, decide_eq_true_eq, not_and] at hok
    simp [hok hw hh]

/-- Witness for C10: a resolved 2-by-1 canvas and a frame carrying 7 bytes
instead of the required 8. -/
theorem renderVideoFrame_raises_iff_bad_length_witness :
    ((renderVideoFrame none
        { width := 2, height := 1, data := List.replicate 7 0,
          timestamp := 0 }
        { videoCanvas := some { width := 2, height := 1, pixels := [] },
          canvasErrors := 0 }).raised = true ↔
      (List.replicate 7 (0 : ℕ)).length ≠ 2 * 1 * 4) :=
  renderVideoFrame_raises_iff_bad_length none
    { videoCanvas := some { width := 2, height := 1, pixels := [] },
      canvasErrors := 0 }
    { width := 2, height := 1, pixels := [] }
    { width := 2, height := 1, data := List.replicate 7 0, timestamp := 0 }
    rfl (by decide) (by decide)

/-- C8 counterexample: with the canvas unresolvable, each
`renderVideoFrame` call logs the unresolved-canvas condition again — two
consecutive calls produce two reports, not the single report across
repeated calls that the claim states. -/
theorem unresolved_canvas_reported_per_call :
    (runFrames none { videoCanvas := none, canvasErrors := 0 }
      [{ width := 2, height := 1, data := List.replicate 8 0,
         timestamp := 0 },
       { width := 2, height := 1, data := List.replicate 8 0,
         timestamp := 1 }]).1.canvasErrors = 2 ∧
    (runFrames none { videoCanvas := none, canvasErrors := 0 }
      [{ width := 2, height := 1, data := List.replicate 8 0,
         timestamp := 0 },
       { width := 2, height := 1, data := List.replicate 8 0,
         timestamp := 1 }]).1.canvasErrors ≠ 1 := by
  refine ⟨by decide, by decide⟩

/-- C8 amended: while the canvas handle cannot be resolved, every
`renderVideoFrame` call is a no-op on the canvas state, never raises and
never resizes, and the unresolved-canvas condition is reported once per
such call (a sequence of `n` calls yields exactly `n` reports). -/
theorem renderVideoFrame_unresolved_noop (frame : VideoFrameData)
    (st : RenderState) (hst : st.videoCanvas = none) :
    (renderVideoFrame none frame st).raised = false ∧
    (renderVideoFrame none frame st).didResize = false ∧
    (renderVideoFrame none frame st).state.videoCanvas = none ∧
    (renderVideoFrame none frame st).state.canvasErrors =
      st.canvasErrors + 1 ∧
    ∀ fs : List VideoFrameData,
      (runFrames none st fs).1.canvasErrors =
        st.canvasErrors + fs.length := by
  have hres : resolveCanvas none st = none := by
    unfold resolveCanvas; rw [hst]
  refine ⟨?_, ?_, ?_, ?_, ?_⟩
  · unfold renderVideoFrame; rw [hres]
  · unfold renderVideoFrame; rw [hres]
  · unfold renderVideoFrame; rw [hres]; exact hst
  · unfold renderVideoFrame; rw [hres]
  · intro fs
    clear hres
    induction fs generalizing st with
    | nil => simp [runFrames]
    | cons f rest ih =>
      have hres2 : resolveCanvas none st = none := by
        unfold resolveCanvas; rw [hst]
      have hstep : renderVideoFrame none f st =
          { state := { st with canvasErrors := st.canvasErrors + 1 },
            didResize := false, raised := false } := by
        unfold renderVideoFrame; rw [hres2]
      unfold runFrames
      rw [hstep]
      dsimp only
      rw [ih { videoCanvas := st.videoCanvas,
               canvasErrors := st.canvasErrors + 1 } hst]
      simp [List.length_cons]
      omega

/-- Witness for C8 (amended) at a concrete frame and the initial renderer
state. -/
theorem renderVideoFrame_unresolved_noop_witness :
    (renderVideoFrame none
      { width := 2, height := 1, data := List.replicate 8 0,
        timestamp := 0 }
      { videoCanvas := none, canvasErrors := 0 }).state.canvasErrors =
      0 + 1 :=
  (renderVideoFrame_unresolved_noop
    { width := 2, height := 1, data := List.replicate 8 0, timestamp := 0 }
    { videoCanvas := none, canvasErrors := 0 } rfl).2.2.2.1

/-- Unfolding one step of `runFrames`. -/
theorem runFrames_cons (dom : Option Canvas) (st : RenderState)
    (f : VideoFrameData) (fs : List VideoFrameData) :
    runFrames dom st (f :: fs) =
      ((runFrames dom (renderVideoFrame dom f st).state fs).1,
       (renderVideoFrame dom f st).didResize ::
         (runFrames dom (renderVideoFrame dom f st).state fs).2) := rfl

/-- With the canvas resolved, a render call leaves the handle bound to a
canvas whose dimensions are the frame's (whether or not it resized or
raised), and resizes exactly when the previous dimensions differed. -/
theorem renderVideoFrame_resolved_canvas (dom : Option Canvas)
    (frame : VideoFrameData) (st : RenderState) (c : Canvas)
    (hc : resolveCanvas dom st = some c) :
    ∃ k, (renderVideoFrame dom frame st).state.videoCanvas = some k ∧
      k.width = frame.width ∧ k.height = frame.height ∧
      (renderVideoFrame dom frame st).didResize =
        (c.width != frame.width || c.height != frame.height) := by
  unfold renderVideoFrame
  rw [hc]
  dsimp only
  by_cases hr : (c.width != frame.width || c.height != frame.height) = true
  · rw [if_pos hr]
    by_cases hok : mkImageDataOk frame.data frame.width frame.height = true
    · rw [if_pos hok]
      exact ⟨_, rfl, rfl, rfl, rfl⟩
    · rw [if_neg hok]
      exact ⟨_, rfl, rfl, rfl, rfl⟩
  · rw [if_neg hr]
    have hdims : c.width = frame.width ∧ c.height = frame.height := by
      simpa [not_or] using hr
    by_cases hok : mkImageDataOk frame.data frame.width frame.height = true
    · rw [if_pos hok]
      exact ⟨_, rfl, hdims.1, hdims.2, rfl⟩
    · rw [if_neg hok]
      exact ⟨c, rfl, hdims.1, hdims.2, rfl⟩

/-- While the canvas stays unresolvable, no call in a frame sequence
resizes. -/
theorem runFrames_unresolved_flags (st : RenderState)
    (fs : List VideoFrameData) (hst : st.videoCanvas = none) :
    ∀ b ∈ (runFrames none st fs).2, b = false := by
  induction fs generalizing st with
  | nil =>
    intro b hb
    simp [runFrames] at hb
  | cons f rest ih =>
    have hres : resolveCanvas none st = none := by
      unfold resolveCanvas; rw [hst]
    have hstep : renderVideoFrame none f st =
        { state := { st with canvasErrors := st.canvasErrors + 1 },
          didResize := false, raised := false } := by
      unfold renderVideoFrame; rw [hres]
    intro b hb
    rw [runFrames_cons, hstep] at hb
    rcases List.mem_cons.mp hb with rfl | hb2
    · rfl
    · exact ih { videoCanvas := st.videoCanvas,
                 canvasErrors := st.canvasErrors + 1 } hst b hb2

/-- Once the bound canvas already has the common dimensions of the
incoming frames, no call in the sequence resizes. -/
theorem runFrames_matched_flags (dom : Option Canvas)
    (fs : List VideoFrameData) (w h : ℕ) :
    ∀ st c, resolveCanvas dom st = some c → c.width = w → c.height = h →
    (∀ f ∈ fs, f.width = w ∧ f.height = h) →
    ∀ b ∈ (runFrames dom st fs).2, b = false := by
  induction fs with
  | nil =>
    intro st c _ _ _ _ b hb
    simp [runFrames] at hb
  | cons f rest ih =>
    intro st c hres hw hh hfs b hb
    obtain ⟨hfw, hfh⟩ := hfs f (List.mem_cons_self f rest)
    obtain ⟨k, hk, hkw, hkh, hflag⟩ :=
      renderVideoFrame_resolved_canvas dom f st c hres
    have hflag0 : (renderVideoFrame dom f st).didResize = false := by
      rw [hflag, hw, hh, hfw, hfh]
      simp
    rw [runFrames_cons] at hb
    rcases List.mem_cons.mp hb with rfl | hb2
    · exact hflag0
    · have hres2 : resolveCanvas dom (renderVideoFrame dom f st).state =
          some k := by
        unfold resolveCanvas; rw [hk]
      exact ih (renderVideoFrame dom f st).state k hres2
        (hkw.trans hfw) (hkh.trans hfh)
        (fun g hg => hfs g (List.mem_cons_of_mem f hg)) b hb2

/-- A list of flags that are all false contains no `true`. -/
theorem count_true_eq_zero_of_all_false (l : List Bool)
    (hl : ∀ b ∈ l, b = false) : l.count true = 0 := by
  rw [List.count_eq_zero]
  intro hmem
  exact absurd (hl true hmem) (by simp)

/-- C7: presenting any sequence of frames of identical dimensions resizes
the backing store at most once, and only on the first frame of the
sequence: every later call finds the canvas dimensions already equal to
the frame's and skips the resize. -/
theorem renderVideoFrame_resize_economy (dom : Option Canvas)
    (st : RenderState) (fs : List VideoFrameData) (w h : ℕ)
    (hfs : ∀ f ∈ fs, f.width = w ∧ f.height = h) :
    (∀ st2 c f2, resolveCanvas dom st2 = some c →
      c.width = f2.width → c.height = f2.height →
      (renderVideoFrame dom f2 st2).didResize = false) ∧
    (runFrames dom st fs).2.count true ≤ 1 ∧
    ∀ b ∈ (runFrames dom st fs).2.tail, b = false := by
  refine ⟨fun st2 c f2 hres hw hh => ?_, ?_⟩
  · obtain ⟨k, _, _, _, hflag⟩ :=
      renderVideoFrame_resolved_canvas dom f2 st2 c hres
    rw [hflag, hw, hh]
    simp
  cases fs with
  | nil => simp [runFrames]
  | cons f rest =>
    obtain ⟨hfw, hfh⟩ := hfs f (List.mem_cons_self f rest)
    have hrest : ∀ b ∈
        (runFrames dom (renderVideoFrame dom f st).state rest).2,
        b = false := by
      cases hres : resolveCanvas dom st with
      | none =>
        have hn : st.videoCanvas = none ∧ dom = none := by
          unfold resolveCanvas at hres
          cases hcv : st.videoCanvas with
          | some c => rw [hcv] at hres; exact absurd hres (by simp)
          | none => rw [hcv] at hres; exact ⟨rfl, hres⟩
        obtain ⟨hst, hdom⟩ := hn
        subst hdom
        have hstep : renderVideoFrame none f st =
            { state := { st with canvasErrors := st.canvasErrors + 1 },
              didResize := false, raised := false } := by
          unfold renderVideoFrame
          rw [show resolveCanvas none st = none from by
            unfold resolveCanvas; rw [hst]]
        rw [hstep]
        exact runFrames_unresolved_flags _ rest hst
      | some c =>
        obtain ⟨k, hk, hkw, hkh, _⟩ :=
          renderVideoFrame_resolved_canvas dom f st c hres
        have hres2 : resolveCanvas dom (renderVideoFrame dom f st).state =
            some k := by
          unfold resolveCanvas; rw [hk]
        exact runFrames_matched_flags dom rest w h
          (renderVideoFrame dom f st).state k hres2
          (hkw.trans hfw) (hkh.trans hfh)
          (fun g hg => hfs g (List.mem_cons_of_mem f hg))
    rw [runFrames_cons]
    constructor
    · have h0 : (runFrames dom (renderVideoFrame dom f st).state
          rest).2.count true = 0 :=
        count_true_eq_zero_of_all_false _ hrest
      rw [List.count_cons, h0]
      split <;> omega
    · intro b hb
      exact hrest b hb

/-- Witness for C7: two consecutive 2-by-1 frames after a fresh canvas of
different dimensions resize at most once, and never after the first
call. -/
theorem renderVideoFrame_resize_economy_witness :
    (runFrames (some { width := 0, height := 0, pixels := [] })
        { videoCanvas := none, canvasErrors := 0 }
        [{ width := 2, height := 1, data := List.replicate 8 0,
           timestamp := 0 },
         { width := 2, height := 1, data := List.replicate 8 0,
           timestamp := 1 }]).2.count true ≤ 1 ∧
    ∀ b ∈ (runFrames (some { width := 0, height := 0, pixels := [] })
        { videoCanvas := none, canvasErrors := 0 }
        [{ width := 2, height := 1, data := List.replicate 8 0,
           timestamp := 0 },
         { width := 2, height := 1, data := List.replicate 8 0,
           timestamp := 1 }]).2.tail, b = false :=
  (renderVideoFrame_resize_economy
    (some { width := 0, height := 0, pixels := [] })
    { videoCanvas := none, canvasErrors := 0 }
    [{ width := 2, height := 1, data := List.replicate 8 0,
       timestamp := 0 },
     { width := 2, height := 1, data := List.replicate 8 0,
       timestamp := 1 }] 2 1 (by decide)).2

/-- C1: `togglePlayPause` succeeding always sets `playing` to the
engine-reported boolean (never computing a local negation), and exactly in
the failure case it sets `playing` to the negation of its previous local
value; no other field of the playback state is touched either way. -/
theorem togglePlayPause_engine_authoritative (s : PlayerState) (b : Bool) :
    (togglePlayPause (some b) s).isPlaying = b ∧
    (togglePlayPause none s).isPlaying = !s.isPlaying ∧
    (togglePlayPause (some b) s).currentTime = s.currentTime ∧
    (togglePlayPause (some b) s).duration = s.duration ∧
    (togglePlayPause (some b) s).volume = s.volume ∧
    (togglePlayPause none s).currentTime = s.currentTime ∧
    (togglePlayPause none s).duration = s.duration ∧
    (togglePlayPause none s).volume = s.volume := by
  refine ⟨rfl, rfl, rfl, rfl, rfl, rfl, rfl, rfl⟩

end WenPlayer
